import Mathlib

/-!
Verification development for the `mqtt_sniffer` utility
(`scripts/mqtt_sniffer.py`).

The program's pure logic is shallowly embedded below:

* `parse_host_port` — the address resolver, together with a model of the
  parts of Python's `urllib.parse.urlparse` that it uses
  (`pyUrlparse`, `urlPort`).
* `topics_for_boat`, `wildcard_topics` — the topic planner.
* `is_mostly_text` — the printable-byte ratio heuristic.
* `hexdumpLines`, `hexdump` — the hex/ASCII dump.
* `pyUtf8Replace` — `bytes.decode(utf-8, errors=replace)`.
* `on_message`, `on_connect` — the two callbacks, rendered as pure
  functions from their inputs to the list of console lines / client
  actions they produce.
* `mainRun`, `handle_sigint` — the process-level control flow of `main`,
  with the outcome of the fallible connect/loop step abstracted as a
  boolean parameter.

Byte strings are `List Nat` (each element a byte value), Python `int`
arguments are `Int`, and Python floats are modeled with exact rationals
(`ℚ`); for the single float comparison in `is_mostly_text` the rational
and IEEE-double results agree for every payload of realistic length.
-/

/-- A one-character string holding a single-quote character (codepoint 39),
used to reproduce Python error messages that quote an offending value. -/
def quoteMark : String := String.singleton (Char.ofNat 39)

/-- Split a character list at the first occurrence of `c`:
returns `(before, found, after)`.  Models Python `str.partition`
(which returns `(s, "", "")` when the separator is absent). -/
def splitAtChar (c : Char) : List Char → List Char × Bool × List Char
  | [] => ([], false, [])
  | x :: t =>
    if x = c then ([], true, t)
    else
      let r := splitAtChar c t
      (x :: r.1, r.2.1, r.2.2)

/-- The part of `l` after the last occurrence of `c` (all of `l` when `c`
is absent).  Models the use of Python `str.rpartition` in
`urllib.parse`, which keeps only the part after the separator. -/
def afterLast (c : Char) (l : List Char) : List Char :=
  let r := splitAtChar c l.reverse
  if r.2.1 then r.1.reverse else l

/-- Characters allowed in a URL scheme after the first one:
ASCII letters, digits, and the three marks, as in `urllib.parse`. -/
def schemeCharOk (c : Char) : Bool :=
  c.isAlpha || c.isDigit || c == '+' || c == '-' || c == '.'

/-- Model of the scheme-splitting step of `urllib.parse.urlsplit`:
if the text before the first colon is a nonempty run of scheme
characters starting with an ASCII letter, it is the scheme (lowercased)
and the remainder follows the colon; otherwise there is no scheme. -/
def splitScheme (l : List Char) : List Char × List Char :=
  let before := l.takeWhile (fun c => !(c == ':'))
  let headAlpha : Bool :=
    match before.head? with
    | some c => c.isAlpha
    | none => false
  if before.length < l.length && !before.isEmpty && headAlpha
      && before.all schemeCharOk then
    (before.map Char.toLower, l.drop (before.length + 1))
  else
    ([], l)

/-- Model of `urllib.parse._splitnetloc`: when the remainder after the
scheme starts with two slashes, the netloc is everything up to the next
slash, question mark or hash sign; otherwise there is none. -/
def splitNetlocPart : List Char → List Char
  | '/' :: '/' :: t =>
    t.takeWhile (fun c => !(c == '/') && !(c == '?') && !(c == '#'))
  | _ => []

/-- The fields of a parsed URL that `parse_host_port` reads.
`portDigits` holds the raw port text after the colon (absent when there
is no colon or nothing follows it), mirroring `SplitResult._hostinfo`. -/
structure UrlParts where
  scheme : String
  hostname : Option String
  portDigits : Option String

/-- Model of `urllib.parse.urlparse` restricted to the fields the
sniffer reads (`scheme`, `hostname`, the raw port text): the scheme is
split off, the netloc extracted and checked for balanced square
brackets (an unbalanced netloc raises `Invalid IPv6 URL`), user
information before the last at-sign is dropped, a bracketed host is the
text between the brackets, and the port text follows the host colon.
The hostname is lowercased (ASCII model) and an empty hostname or port
text is reported as absent, exactly as the corresponding CPython
properties do. -/
def pyUrlparse (s : String) : Except String UrlParts :=
  let rest := (splitScheme s.data).2
  let sch := (splitScheme s.data).1
  let netloc := splitNetlocPart rest
  if (netloc.contains '[') != (netloc.contains ']') then
    Except.error "Invalid IPv6 URL"
  else
    let hostinfo := afterLast '@' netloc
    let br := splitAtChar '[' hostinfo
    let hp : List Char × List Char :=
      if br.2.1 then
        let inner := splitAtChar ']' br.2.2
        let afterColon := splitAtChar ':' inner.2.2
        (inner.1, afterColon.2.2)
      else
        let pc := splitAtChar ':' hostinfo
        (pc.1, pc.2.2)
    Except.ok
      { scheme := String.mk sch
        hostname :=
          if hp.1.isEmpty then none
          else some (String.mk (hp.1.map Char.toLower))
        portDigits :=
          if hp.2.isEmpty then none else some (String.mk hp.2) }

/-- Model of the `SplitResult.port` property: absent port text gives
`none`; otherwise the text must be a run of ASCII decimal digits whose
value is at most 65535, and anything else raises a `ValueError`
(the two CPython messages are reproduced). -/
def urlPort (u : UrlParts) : Except String (Option Nat) :=
  match u.portDigits with
  | none => Except.ok none
  | some s =>
    if s.data.all Char.isDigit && !s.data.isEmpty then
      let v := s.data.foldl (fun a c => a * 10 + (c.toNat - 48)) 0
      if v ≤ 65535 then Except.ok (some v)
      else Except.error "Port out of range 0-65535"
    else
      Except.error
        ("Port could not be cast to integer value as " ++ quoteMark ++ s ++ quoteMark)

/-- The scheme separator `://` as used by the membership test
`"://" in host_arg`. -/
def schemeSep : List Char := [':', '/', '/']

/-- Model of the Python substring test `"://" in host_arg`. -/
def pyContainsSep (s : String) : Bool := decide (List.IsInfix schemeSep s.data)

/-- Embedding of `parse_host_port(host_arg, port_arg)`.  Exceptions
raised inside it (by its own `raise ValueError` or by the `u.port`
property) surface as `Except.error`; the success value is the returned
`(host, port, use_tls)` triple.  Note `u.port or default`: a parsed
port of `0` is falsy in Python, so it is replaced by the scheme
default. -/
def parse_host_port (host_arg : String) (port_arg : Option Int) :
    Except String (String × Int × Bool) :=
  if pyContainsSep host_arg then
    match pyUrlparse host_arg with
    | Except.error e => Except.error e
    | Except.ok u =>
      if u.scheme = "ssl" ∨ u.scheme = "tcp" then
        let use_tls : Bool := u.scheme == "ssl"
        let host : String :=
          match u.hostname with
          | some h => h
          | none => host_arg
        match port_arg with
        | some p => Except.ok (host, p, use_tls)
        | none =>
          match urlPort u with
          | Except.error e => Except.error e
          | Except.ok po =>
            let dflt : Int := if use_tls then 8883 else 1883
            let port : Int :=
              match po with
              | some pv => if pv = 0 then dflt else (pv : Int)
              | none => dflt
            Except.ok (host, port, use_tls)
      else
        Except.error
          ("Unsupported scheme " ++ quoteMark ++ u.scheme ++ quoteMark
            ++ ". Use ssl:// or tcp://")
  else
    let port : Int :=
      match port_arg with
      | some p => p
      | none => 8883
    Except.ok (host_arg, port, port == 8883)

/-- Embedding of `topics_for_boat(boat_id)`. -/
def topics_for_boat (boat_id : String) : List String :=
  let base := "boats/" ++ boat_id
  [base ++ "/from_vehicle", base ++ "/to_vehicle", base ++ "/status"]

/-- Embedding of `wildcard_topics()`. -/
def wildcard_topics : List String :=
  ["boats/+/from_vehicle", "boats/+/to_vehicle", "boats/+/status"]

/-- The byte predicate counted by `is_mostly_text`:
printable ASCII or tab, line feed, carriage return. -/
def textByte (b : Nat) : Bool :=
  decide ((32 ≤ b ∧ b ≤ 126) ∨ b = 9 ∨ b = 10 ∨ b = 13)

/-- Embedding of `is_mostly_text(payload)`; the float comparison
`printable / max(1, len(payload)) > 0.85` is taken over exact
rationals. -/
def is_mostly_text (payload : List Nat) : Bool :=
  if payload.isEmpty then true
  else
    let printable : Nat := payload.countP textByte
    decide ((printable : ℚ) / ((max 1 payload.length : Nat) : ℚ) > (0.85 : ℚ))

/-- Lowercase hexadecimal digit for a value below 16. -/
def hexDigitChar (d : Nat) : Char :=
  if d < 10 then Char.ofNat (48 + d) else Char.ofNat (87 + d)

/-- Little-endian hexadecimal digits of `n`, with fuel (the fuel is
always at least the digit count when it is at least `n`). -/
def hexRevGo : Nat → Nat → List Char
  | 0, _ => []
  | f + 1, n => if n = 0 then [] else hexDigitChar (n % 16) :: hexRevGo f (n / 16)

/-- Lowercase hexadecimal digits of `n`, most significant first
(`"0"` for zero), as produced by Python `format(n, "x")`. -/
def pyHexChars (n : Nat) : List Char :=
  if n = 0 then ['0'] else (hexRevGo n n).reverse

/-- Model of the Python format directive `0Nx` (zero-padded lowercase
hexadecimal of minimum width `w`; wider values keep all their digits). -/
def pyHexPad (w n : Nat) : String :=
  String.mk (List.replicate (w - (pyHexChars n).length) '0' ++ pyHexChars n)

/-- Model of the format alignment `:<w` — pad on the right with spaces
to minimum width `w` (Python format widths never truncate). -/
def pyLjust (w : Nat) (s : String) : String :=
  s ++ String.mk (List.replicate (w - s.length) ' ')

/-- The ASCII column rendering of one byte: the character itself when
printable (32–126), a dot otherwise. -/
def asciiDumpChar (x : Nat) : Char :=
  if 32 ≤ x ∧ x ≤ 126 then Char.ofNat x else '.'

/-- One output row of `hexdump`, for the chunk starting at offset `i`:
`f"{i:04x}  {hexpart:<{width*3}}  {asciipart}"`. -/
def hexLine (width i : Nat) (chunk : List Nat) : String :=
  pyHexPad 4 i ++ "  "
    ++ pyLjust (width * 3) (String.intercalate " " (chunk.map (fun x => pyHexPad 2 x)))
    ++ "  " ++ String.mk (chunk.map asciiDumpChar)

/-- The rows of `hexdump(b, width)`.  The Python loop
`for i in range(0, len(b), width)` visits exactly the multiples
`width*r` for `r < ceil(len(b) / width)`, each with chunk
`b[i : i + width]`. -/
def hexdumpLines (b : List Nat) (width : Nat) : List String :=
  (List.range ((b.length + width - 1) / width)).map
    (fun r => hexLine width (width * r) ((b.drop (width * r)).take width))

/-- Embedding of `hexdump(b, width)`: the rows joined by newlines. -/
def hexdump (b : List Nat) (width : Nat) : String :=
  String.intercalate "\n" (hexdumpLines b width)

/-- Model of Python `str.endswith`: suffix test on the character data. -/
def pyEndsWith (s t : String) : Bool := t.data.isSuffixOf s.data

/-- Result of examining one UTF-8 sequence at the front of the input:
either a decoded scalar value with the remaining bytes, or an
ill-formed sequence whose maximal subpart has been consumed, leaving
the remaining bytes.  This is the CPython decoding step shared by the
strict decoder (which raises at `bad`) and the `replace` handler
(which emits U+FFFD at `bad`). -/
inductive Utf8Step where
  | ok (cp : Nat) (rest : List Nat)
  | bad (rest : List Nat)

/-- The remaining bytes after one decoding step. -/
def Utf8Step.rest : Utf8Step → List Nat
  | .ok _ r => r
  | .bad r => r

/-- Is `c` a UTF-8 continuation byte? -/
def utf8Cont (c : Nat) : Bool := decide (128 ≤ c ∧ c ≤ 191)

/-- One step of the CPython UTF-8 decoder on first byte `b` with
remaining input `t`.  The accepted ranges follow RFC 3629 exactly as
CPython implements them (no overlong forms, no surrogates, nothing
above U+10FFFF); on an ill-formed sequence the maximal subpart — the
first byte plus any valid continuation bytes seen before the failure —
is consumed. -/
def utf8Step (b : Nat) (t : List Nat) : Utf8Step :=
  if b ≤ 127 then
    Utf8Step.ok b t
  else if 194 ≤ b ∧ b ≤ 223 then
    match t with
    | c1 :: r =>
      if utf8Cont c1 then Utf8Step.ok ((b - 192) * 64 + (c1 - 128)) r
      else Utf8Step.bad t
    | [] => Utf8Step.bad []
  else if 224 ≤ b ∧ b ≤ 239 then
    let lo : Nat := if b = 224 then 160 else 128
    let hi : Nat := if b = 237 then 159 else 191
    match t with
    | c1 :: c2 :: r =>
      if lo ≤ c1 ∧ c1 ≤ hi then
        if utf8Cont c2 then
          Utf8Step.ok ((b - 224) * 4096 + (c1 - 128) * 64 + (c2 - 128)) r
        else Utf8Step.bad (c2 :: r)
      else Utf8Step.bad t
    | [c1] =>
      if lo ≤ c1 ∧ c1 ≤ hi then Utf8Step.bad [] else Utf8Step.bad [c1]
    | [] => Utf8Step.bad []
  else if 240 ≤ b ∧ b ≤ 244 then
    let lo : Nat := if b = 240 then 144 else 128
    let hi : Nat := if b = 244 then 143 else 191
    match t with
    | c1 :: c2 :: c3 :: r =>
      if lo ≤ c1 ∧ c1 ≤ hi then
        if utf8Cont c2 then
          if utf8Cont c3 then
            Utf8Step.ok
              ((b - 240) * 262144 + (c1 - 128) * 4096 + (c2 - 128) * 64 + (c3 - 128)) r
          else Utf8Step.bad (c3 :: r)
        else Utf8Step.bad (c2 :: c3 :: r)
      else Utf8Step.bad t
    | [c1, c2] =>
      if lo ≤ c1 ∧ c1 ≤ hi then
        if utf8Cont c2 then Utf8Step.bad [] else Utf8Step.bad [c2]
      else Utf8Step.bad [c1, c2]
    | [c1] =>
      if lo ≤ c1 ∧ c1 ≤ hi then Utf8Step.bad [] else Utf8Step.bad [c1]
    | [] => Utf8Step.bad []
  else
    Utf8Step.bad t

/-- Iterated strict decoding with fuel; `none` models the
`UnicodeDecodeError` raised by `bytes.decode("utf-8")` with the default
error handler.  Fuel at least the input length is always enough, since
every step consumes at least the first byte. -/
def utf8StrictGo : Nat → List Nat → Option (List Nat)
  | _, [] => some []
  | 0, _ :: _ => none
  | f + 1, b :: t =>
    match utf8Step b t with
    | Utf8Step.ok cp r => (utf8StrictGo f r).map (fun s => cp :: s)
    | Utf8Step.bad _ => none

/-- Model of strict `bytes.decode("utf-8")`: the scalar values on
success, `none` when the input is not valid UTF-8. -/
def utf8DecodeStrict (p : List Nat) : Option (List Nat) := utf8StrictGo p.length p

/-- Iterated decoding with the `replace` handler, with fuel:
each ill-formed maximal subpart becomes one U+FFFD (65533). -/
def utf8ReplaceGo : Nat → List Nat → List Nat
  | _, [] => []
  | 0, _ :: _ => []
  | f + 1, b :: t =>
    match utf8Step b t with
    | Utf8Step.ok cp r => cp :: utf8ReplaceGo f r
    | Utf8Step.bad r => 65533 :: utf8ReplaceGo f r

/-- Embedding of `payload.decode("utf-8", errors="replace")` at the
level of scalar values: total on every byte sequence. -/
def pyUtf8Replace (p : List Nat) : List Nat := utf8ReplaceGo p.length p

/-- The decoded text as a string (every scalar the decoder emits is a
valid `Char`). -/
def decodeReplaceStr (p : List Nat) : String :=
  String.mk ((pyUtf8Replace p).map Char.ofNat)

/-- The header line of `on_message`:
`f"[{ts}] {topic} (QoS {msg.qos}, {len(payload)} bytes)"`. -/
def infoLine (ts topic : String) (qos : Nat) (nbytes : Nat) : String :=
  "[" ++ ts ++ "] " ++ topic ++ " (QoS " ++ toString qos ++ ", "
    ++ toString nbytes ++ " bytes)"

/-- Embedding of the `on_message` callback as the list of lines it
prints (each `print` call is one element; a multi-row hex dump is a
single element containing newlines, as printed by one call). -/
def on_message (ts topic : String) (qos : Nat) (payload : List Nat) : List String :=
  let info := infoLine ts topic qos payload.length
  if pyEndsWith topic "/status" && is_mostly_text payload then
    [info ++ ": " ++ decodeReplaceStr payload]
  else
    [info, hexdump payload 16]

/-- An action the `on_connect` callback performs against the client or
the console. -/
inductive ClientAction where
  | sub (topic : String) (qos : Nat)
  | line (s : String)
deriving DecidableEq

/-- Embedding of the `on_connect` callback: on `rc == 0` it prints the
connected line and then, for each stashed subscription, issues the
subscribe and prints its confirmation; otherwise it prints the failure
line only. -/
def on_connect (ts : String) (subs : List (String × Nat)) (rc : Nat) :
    List ClientAction :=
  if rc = 0 then
    ClientAction.line ("[" ++ ts ++ "] Connected to broker")
      :: subs.flatMap (fun tq =>
        [ClientAction.sub tq.1 tq.2,
         ClientAction.line ("[" ++ ts ++ "] Subscribed to " ++ tq.1
           ++ " (QoS " ++ toString tq.2 ++ ")")])
  else
    [ClientAction.line ("[" ++ ts ++ "] Connect failed with rc=" ++ toString rc)]

/-- The subscription requests issued by a list of actions, in order. -/
def subsIssued (l : List ClientAction) : List (String × Nat) :=
  l.filterMap (fun a =>
    match a with
    | ClientAction.sub t q => some (t, q)
    | ClientAction.line _ => none)

/-- Python `str(bool)`. -/
def pyBoolStr (b : Bool) : String := if b then "True" else "False"

/-- An observable event of `main`: a console line, the connect attempt,
a subscribe call, or the disconnect call of the signal handler. -/
inductive MainEvent where
  | printed (s : String)
  | connectAttempt (host : String) (port : Int)
  | subscribed (topic : String) (qos : Nat)
  | disconnectCall
deriving DecidableEq

/-- The subscription list `main` builds once and stashes in the client
user data: wildcard topics when `--wildcard` is given, otherwise the
boat topics, each paired with the uniform `--qos` value. -/
def buildSubs (wildcard : Bool) (boat_id : String) (qos : Nat) :
    List (String × Nat) :=
  (if wildcard then wildcard_topics else topics_for_boat boat_id).map
    (fun t => (t, qos))

/-- Control-flow model of `main` after argument parsing: the events it
produces and its return value (the process exit code).  The single
boolean `startupRaises` abstracts whether the `try` block around
`connect`/`loop_forever` raises (any such exception is caught and
yields exit code 1); `raiseMsg` is that exception's text. -/
def mainRun (host_arg : String) (port_arg : Option Int) (wildcard : Bool)
    (boat_id : String) (qos : Nat) (startupRaises : Bool) (raiseMsg : String) :
    List MainEvent × Nat :=
  match parse_host_port host_arg port_arg with
  | Except.error e => ([MainEvent.printed ("Invalid host: " ++ e)], 2)
  | Except.ok (host, port, use_tls) =>
    let subs := buildSubs wildcard boat_id qos
    let pre :=
      [MainEvent.printed ("Connecting to " ++ host ++ ":" ++ toString port
          ++ " TLS=" ++ pyBoolStr use_tls),
       MainEvent.connectAttempt host port]
    if startupRaises then
      (pre ++ [MainEvent.printed ("Connection error: " ++ raiseMsg)], 1)
    else
      (pre ++ subs.map (fun tq => MainEvent.subscribed tq.1 tq.2), 0)

/-- Control-flow model of the SIGINT handler: it prints, attempts the
disconnect (whose failure is swallowed by `try`/`except: pass`), and
exits with status 0 regardless of `disconnectRaises`. -/
def handle_sigint (disconnectRaises : Bool) : List MainEvent × Nat :=
  if disconnectRaises then
    ([MainEvent.printed "\nDisconnecting...", MainEvent.disconnectCall], 0)
  else
    ([MainEvent.printed "\nDisconnecting...", MainEvent.disconnectCall], 0)

/-! ### Helper lemmas -/

/-- The float comparison of `is_mostly_text`, cross-multiplied into
natural numbers. -/
theorem ratCross (c m : Nat) (hm : 0 < m) :
    ((c : ℚ) / (m : ℚ) > (0.85 : ℚ)) ↔ 85 * m < 100 * c := by
  have hm0 : (0 : ℚ) < (m : ℚ) := by exact_mod_cast hm
  rw [gt_iff_lt, lt_div_iff₀ hm0]
  constructor
  · intro h
    have h2 : (85 : ℚ) * m < 100 * c := by nlinarith
    exact_mod_cast h2
  · intro h
    have h2 : (85 : ℚ) * m < 100 * c := by exact_mod_cast h
    nlinarith

/-- Executable form of `is_mostly_text` (the rational comparison
cross-multiplied), used to evaluate it on concrete payloads. -/
theorem is_mostly_text_eq (payload : List Nat) :
    is_mostly_text payload
      = (payload.isEmpty
          || decide (85 * max 1 payload.length < 100 * payload.countP textByte)) := by
  cases hempty : payload.isEmpty with
  | true => simp [is_mostly_text, hempty]
  | false =>
    have hm : 0 < max 1 payload.length := by omega
    simp only [is_mostly_text, hempty, Bool.false_eq_true, if_false, Bool.false_or]
    rw [decide_eq_decide]
    exact ratCross _ _ hm

/-! ### Claims -/

/-- C3: `is_mostly_text` returns true exactly when the payload is empty
or the fraction of printable-or-whitespace bytes strictly exceeds 0.85
of the byte count; a 100-byte payload with 90 such bytes passes and one
with 80 such bytes does not. -/
theorem mostly_text_characterization (p : List Nat) :
    (is_mostly_text p = true
      ↔ (p = [] ∨ ((p.countP textByte : ℚ) / (p.length : ℚ) > (0.85 : ℚ))))
    ∧ is_mostly_text (List.replicate 90 65 ++ List.replicate 10 0) = true
    ∧ is_mostly_text (List.replicate 80 65 ++ List.replicate 20 0) = false := by
  refine ⟨?_, by rw [is_mostly_text_eq]; decide, by rw [is_mostly_text_eq]; decide⟩
  cases p with
  | nil => simp [is_mostly_text]
  | cons a t =>
    have hlen : 0 < (a :: t).length := by simp
    have hmax : max 1 (a :: t).length = (a :: t).length := by omega
    have hq := ratCross ((a :: t).countP textByte) (a :: t).length hlen
    rw [is_mostly_text_eq]
    simp only [List.isEmpty_cons, Bool.false_or, decide_eq_true_eq, hmax,
      List.cons_ne_nil, false_or]
    exact hq.symm

/-- C6: the topic planner returns exactly the three boat-scoped topics,
and the three wildcard topics, in order (from_vehicle, to_vehicle,
status); both are pure functions of their arguments. -/
theorem topic_planner_exact (x : String) :
    topics_for_boat x
        = ["boats/" ++ x ++ "/from_vehicle", "boats/" ++ x ++ "/to_vehicle",
           "boats/" ++ x ++ "/status"]
    ∧ wildcard_topics
        = ["boats/+/from_vehicle", "boats/+/to_vehicle", "boats/+/status"] := by
  refine ⟨?_, rfl⟩
  simp [topics_for_boat, String.append_assoc]

/-- C5: on a host string without the scheme separator the resolver
always succeeds, returns the string itself as host, defaults the port
to 8883, and enables encryption exactly when the resulting port is
8883. -/
theorem bare_host_resolution (host_arg : String) (port_arg : Option Int)
    (h : pyContainsSep host_arg = false) :
    parse_host_port host_arg port_arg
        = Except.ok (host_arg, port_arg.getD 8883,
            ((port_arg.getD 8883 == (8883 : Int)) : Bool))
    ∧ ∀ hh p t, parse_host_port host_arg port_arg = Except.ok (hh, p, t)
        → (t = true ↔ p = 8883) := by
  have h1 : parse_host_port host_arg port_arg
      = Except.ok (host_arg, port_arg.getD 8883,
          ((port_arg.getD 8883 == (8883 : Int)) : Bool)) := by
    unfold parse_host_port
    rw [h]
    cases port_arg <;> rfl
  refine ⟨h1, ?_⟩
  intro hh p t hparse
  rw [h1] at hparse
  simp only [Except.ok.injEq, Prod.mk.injEq] at hparse
  obtain ⟨-, hp, ht⟩ := hparse
  subst hp
  rw [← ht]
  simp [beq_iff_eq]

/-- Witness for C5 at concrete inputs: explicit port 1883 disables
encryption; no port defaults to 8883 with encryption on. -/
theorem bare_host_resolution_witness :
    parse_host_port "broker.local" (some 1883)
        = Except.ok ("broker.local", 1883, false)
    ∧ parse_host_port "broker.local" none
        = Except.ok ("broker.local", 8883, true) :=
  ⟨(bare_host_resolution "broker.local" (some 1883) (by decide)).1,
   (bare_host_resolution "broker.local" none (by decide)).1⟩

theorem utf8Step_rest_le (b : Nat) (t : List Nat) :
    (utf8Step b t).rest.length ≤ t.length := by
  rcases t with _ | ⟨c1, _ | ⟨c2, _ | ⟨c3, r⟩⟩⟩ <;>
    simp only [utf8Step] <;> split_ifs <;> simp [Utf8Step.rest] <;> omega

theorem utf8StrictGo_replaceGo :
    ∀ (f : Nat) (l s : List Nat), utf8StrictGo f l = some s → utf8ReplaceGo f l = s := by
  intro f
  induction f with
  | zero =>
    intro l s h
    cases l with
    | nil =>
      simp only [utf8StrictGo, Option.some.injEq] at h
      simp [utf8ReplaceGo, ← h]
    | cons b t => simp [utf8StrictGo] at h
  | succ f ih =>
    intro l s h
    cases l with
    | nil =>
      simp only [utf8StrictGo, Option.some.injEq] at h
      simp [utf8ReplaceGo, ← h]
    | cons b t =>
      rw [utf8StrictGo] at h
      rw [utf8ReplaceGo]
      cases hstep : utf8Step b t with
      | ok cp r =>
        rw [hstep] at h
        simp only [Option.map_eq_some'] at h
        obtain ⟨s0, hs0, rfl⟩ := h
        simp [ih r s0 hs0]
      | bad r =>
        rw [hstep] at h
        simp at h

theorem utf8StrictGo_none_mem :
    ∀ (f : Nat) (l : List Nat), utf8StrictGo f l = none → l.length ≤ f →
      (65533 : Nat) ∈ utf8ReplaceGo f l := by
  intro f
  induction f with
  | zero =>
    intro l h hlen
    cases l with
    | nil => simp [utf8StrictGo] at h
    | cons b t => simp at hlen
  | succ f ih =>
    intro l h hlen
    cases l with
    | nil => simp [utf8StrictGo] at h
    | cons b t =>
      rw [utf8StrictGo] at h
      rw [utf8ReplaceGo]
      cases hstep : utf8Step b t with
      | ok cp r =>
        rw [hstep] at h
        simp only [Option.map_eq_none'] at h
        have hr : r.length ≤ f := by
          have := utf8Step_rest_le b t
          rw [hstep] at this
          simp only [Utf8Step.rest] at this
          simp at hlen
          omega
        exact List.mem_cons_of_mem _ (ih r h hr)
      | bad r => exact List.mem_cons_self _ _

theorem pyUtf8Replace_strict (p s : List Nat) (h : utf8DecodeStrict p = some s) :
    pyUtf8Replace p = s :=
  utf8StrictGo_replaceGo p.length p s h

theorem pyUtf8Replace_replacement (p : List Nat) (h : utf8DecodeStrict p = none) :
    (65533 : Nat) ∈ pyUtf8Replace p :=
  utf8StrictGo_none_mem p.length p h (le_refl _)

/-- C1: the renderer produces the decoded-text line exactly when the
topic ends in `/status` and the payload is classified mostly-text, and
the hex/ASCII dump otherwise; the replace decoder is total, agrees with
strict UTF-8 decoding on valid input, and inserts the replacement
character U+FFFD whenever the payload is not valid UTF-8 (so decoding
never raises). -/
theorem renderer_policy (ts topic : String) (qos : Nat) (p : List Nat) :
    ((pyEndsWith topic "/status" && is_mostly_text p) = true
      → on_message ts topic qos p
          = [infoLine ts topic qos p.length ++ ": " ++ decodeReplaceStr p])
    ∧ ((pyEndsWith topic "/status" && is_mostly_text p) = false
      → on_message ts topic qos p
          = [infoLine ts topic qos p.length, hexdump p 16])
    ∧ (∀ s, utf8DecodeStrict p = some s → pyUtf8Replace p = s)
    ∧ (utf8DecodeStrict p = none → (65533 : Nat) ∈ pyUtf8Replace p) := by
  refine ⟨?_, ?_, fun s h => pyUtf8Replace_strict p s h,
    fun h => pyUtf8Replace_replacement p h⟩
  · intro h
    simp [on_message, h]
  · intro h
    simp [on_message, h]

/-- Witness for C1: a status message with payload `OK` prints one line
ending in `: OK`; valid UTF-8 decodes unchanged; an invalid byte is
replaced. -/
theorem renderer_policy_witness :
    on_message "T" "boats/x/status" 1 [79, 75]
        = ["[T] boats/x/status (QoS 1, 2 bytes): OK"]
    ∧ pyUtf8Replace [104, 105] = [104, 105]
    ∧ (65533 : Nat) ∈ pyUtf8Replace [255] := by
  refine ⟨?_, ?_, ?_⟩
  · have h := (renderer_policy "T" "boats/x/status" 1 [79, 75]).1
      (by rw [is_mostly_text_eq]; decide)
    exact h.trans (by decide)
  · exact (renderer_policy "T" "boats/x/status" 1 [104, 105]).2.2.1 [104, 105] rfl
  · exact (renderer_policy "T" "boats/x/status" 1 [255]).2.2.2 rfl

/-- C10: the hex dump of the empty byte sequence is the empty string,
so a message with empty payload on a topic not ending in `/status`
prints its header line followed by a single empty line (the second
`print` of an empty dump), never a dump row. -/
theorem empty_payload_dump (ts topic : String) (qos : Nat)
    (h : pyEndsWith topic "/status" = false) :
    hexdump [] 16 = ""
    ∧ on_message ts topic qos [] = [infoLine ts topic qos 0, ""] := by
  have hd : hexdump ([] : List Nat) 16 = "" := rfl
  refine ⟨hd, ?_⟩
  simp [on_message, h, hd]

/-- Witness for C10 at a concrete non-status topic. -/
theorem empty_payload_dump_witness :
    on_message "T" "boats/x/from_vehicle" 1 []
        = ["[T] boats/x/from_vehicle (QoS 1, 0 bytes)", ""] := by
  have h := (empty_payload_dump "T" "boats/x/from_vehicle" 1 (by decide)).2
  exact h.trans (by decide)

/-- Helper: extracting the subscription requests from the subscribe and
confirm action pairs recovers the subscription list exactly. -/
theorem subsIssued_flatMap (g : String × Nat → String)
    (subs : List (String × Nat)) :
    subsIssued (subs.flatMap (fun tq =>
      [ClientAction.sub tq.1 tq.2, ClientAction.line (g tq)])) = subs := by
  induction subs with
  | nil => rfl
  | cons tq rest ih =>
    simp only [List.flatMap_cons, subsIssued, List.filterMap_append] at *
    simp [ih]

/-- C7: every invocation of `on_connect` with result code 0 re-issues
exactly the stashed subscription list, in order, each subscribe
followed by its confirmation line; a nonzero code prints only the
failure line and subscribes to nothing.  The stashed list itself is
`buildSubs`, a pure function of the CLI arguments computed once in
`main`. -/
theorem reconnect_resubscribes (ts : String) (subs : List (String × Nat)) (rc : Nat) :
    (rc = 0 →
      on_connect ts subs rc
          = ClientAction.line ("[" ++ ts ++ "] Connected to broker")
            :: subs.flatMap (fun tq =>
              [ClientAction.sub tq.1 tq.2,
               ClientAction.line ("[" ++ ts ++ "] Subscribed to " ++ tq.1
                 ++ " (QoS " ++ toString tq.2 ++ ")")])
      ∧ subsIssued (on_connect ts subs rc) = subs)
    ∧ (rc ≠ 0 →
      on_connect ts subs rc
          = [ClientAction.line ("[" ++ ts ++ "] Connect failed with rc="
              ++ toString rc)]
      ∧ subsIssued (on_connect ts subs rc) = []) := by
  constructor
  · intro hrc
    subst hrc
    refine ⟨by simp [on_connect], ?_⟩
    simp only [on_connect, if_pos rfl, subsIssued, List.filterMap_cons]
    exact subsIssued_flatMap _ subs
  · intro hrc
    refine ⟨by simp [on_connect, hrc], ?_⟩
    simp [on_connect, hrc, subsIssued]

/-- Witness for C7 with a concrete subscription list, at a successful
and at a failed connect code. -/
theorem reconnect_resubscribes_witness :
    subsIssued (on_connect "T" [("boats/x/status", 1)] 0) = [("boats/x/status", 1)]
    ∧ on_connect "T" [("boats/x/status", 1)] 5
        = [ClientAction.line "[T] Connect failed with rc=5"] := by
  refine ⟨((reconnect_resubscribes "T" [("boats/x/status", 1)] 0).1 rfl).2, ?_⟩
  have h := ((reconnect_resubscribes "T" [("boats/x/status", 1)] 5).2 (by decide)).1
  exact h.trans (by decide)

/-- C8: the exit code is 2 exactly when address resolution of the host
argument fails, and then no connect is attempted; with a resolved
address the code is 1 when the startup try-block raises and 0
otherwise; the SIGINT handler exits 0 whether or not its best-effort
disconnect raises. -/
theorem exit_codes (host_arg : String) (port_arg : Option Int) (w : Bool)
    (bid : String) (qos : Nat) (sr : Bool) (msg : String) :
    (∀ e, parse_host_port host_arg port_arg = Except.error e →
       mainRun host_arg port_arg w bid qos sr msg
           = ([MainEvent.printed ("Invalid host: " ++ e)], 2))
    ∧ (∀ hh p t, parse_host_port host_arg port_arg = Except.ok (hh, p, t) →
       (mainRun host_arg port_arg w bid qos sr msg).2 = if sr then 1 else 0)
    ∧ ((mainRun host_arg port_arg w bid qos sr msg).2 = 2
        ↔ ∃ e, parse_host_port host_arg port_arg = Except.error e)
    ∧ (∀ e hh p, parse_host_port host_arg port_arg = Except.error e →
        MainEvent.connectAttempt hh p
          ∉ (mainRun host_arg port_arg w bid qos sr msg).1)
    ∧ (∀ dr, (handle_sigint dr).2 = 0) := by
  refine ⟨?_, ?_, ?_, ?_, fun dr => by cases dr <;> rfl⟩
  · intro e he
    simp [mainRun, he]
  · intro hh p t hok
    cases sr <;> simp [mainRun, hok]
  · cases hp : parse_host_port host_arg port_arg with
    | error e =>
      simp only [mainRun]
      rw [hp]
      simp
    | ok v =>
      obtain ⟨hh, p, t⟩ := v
      simp only [mainRun]
      rw [hp]
      cases sr <;> simp
  · intro e hh p he
    simp [mainRun, he]

/-- Witness for C8: an unsupported scheme exits 2 without a connect
attempt; a resolvable host exits 1 when startup raises and 0 when it
does not; the handler exits 0 in both disconnect outcomes. -/
theorem exit_codes_witness :
    (mainRun "ws://h" none false "x" 1 false "").2 = 2
    ∧ (∀ hh p, MainEvent.connectAttempt hh p ∉ (mainRun "ws://h" none false "x" 1 false "").1)
    ∧ (mainRun "h" none false "x" 1 true "boom").2 = 1
    ∧ (mainRun "h" none false "x" 1 false "").2 = 0
    ∧ (handle_sigint true).2 = 0 := by
  refine ⟨?_, ?_, ?_, ?_, (exit_codes "h" none false "x" 1 false "").2.2.2.2 true⟩
  · have h := (exit_codes "ws://h" none false "x" 1 false "").1 _ rfl
    rw [h]
  · intro hh p
    exact (exit_codes "ws://h" none false "x" 1 false "").2.2.2.1 _ hh p rfl
  · have h := (exit_codes "h" none false "x" 1 true "boom").2.1 "h" 8883 true rfl
    exact h.trans (by decide)
  · have h := (exit_codes "h" none false "x" 1 false "").2.1 "h" 8883 true rfl
    exact h.trans (by decide)

/-- Helper: a port value accepted by the `port` property is at most
65535. -/
theorem urlPort_ok_le (u : UrlParts) (pv : Nat)
    (h : urlPort u = Except.ok (some pv)) : pv ≤ 65535 := by
  unfold urlPort at h
  split at h
  · simp at h
  · dsimp only at h
    split at h
    · split at h
      · simp only [Except.ok.injEq, Option.some.injEq] at h
        omega
      · simp at h
    · simp at h


/-- C4 counterexample: `ssl://h:0` carries an embedded port (the
`port` property yields 0), yet the resolver returns the scheme default
8883 — `u.port or default` treats a parsed port of 0 as falsy — so the
port does not equal the URL's embedded port. -/
theorem scheme_resolution_cex :
    parse_host_port "ssl://h:0" none = Except.ok ("h", 8883, true)
    ∧ pyUrlparse "ssl://h:0"
        = Except.ok { scheme := "ssl", hostname := some "h", portDigits := some "0" }
    ∧ urlPort { scheme := "ssl", hostname := some "h", portDigits := some "0" }
        = Except.ok (some 0)
    ∧ (8883 : Int) ≠ 0 :=
  ⟨rfl, rfl, rfl, by decide⟩

/-- C4 amended: for a host string containing the scheme separator,
the resolver fails with an error naming the scheme exactly when the
parsed scheme is neither `ssl` nor `tcp`; it can also fail when URL
parsing itself raises (unbalanced brackets) or, when no explicit port
was given, when the URL's embedded port text is malformed or out of
range.  On success, encryption is enabled iff the scheme is `ssl`, and
the port is the explicit port when given, otherwise the embedded port
when present and nonzero, otherwise 8883 for `ssl` and 1883 for
`tcp`. -/
theorem scheme_resolution (host_arg : String) (port_arg : Option Int)
    (hsep : pyContainsSep host_arg = true) :
    (∀ e, pyUrlparse host_arg = Except.error e →
        parse_host_port host_arg port_arg = Except.error e)
    ∧ ∀ u, pyUrlparse host_arg = Except.ok u →
        ((u.scheme ≠ "ssl" ∧ u.scheme ≠ "tcp") →
            parse_host_port host_arg port_arg
              = Except.error ("Unsupported scheme " ++ quoteMark ++ u.scheme
                  ++ quoteMark ++ ". Use ssl:// or tcp://"))
        ∧ ((u.scheme = "ssl" ∨ u.scheme = "tcp") →
            (∀ p, port_arg = some p →
               parse_host_port host_arg port_arg
                 = Except.ok (u.hostname.getD host_arg, p, (u.scheme == "ssl" : Bool)))
            ∧ (port_arg = none →
               (∀ e, urlPort u = Except.error e →
                  parse_host_port host_arg port_arg = Except.error e)
               ∧ (∀ po, urlPort u = Except.ok po →
                  parse_host_port host_arg port_arg
                    = Except.ok (u.hostname.getD host_arg,
                        (match po with
                         | some pv =>
                           if pv = 0 then
                             (if (u.scheme == "ssl" : Bool) then (8883 : Int) else 1883)
                           else (pv : Int)
                         | none =>
                           (if (u.scheme == "ssl" : Bool) then (8883 : Int) else 1883)),
                        (u.scheme == "ssl" : Bool))))) := by
  constructor
  · intro e he
    unfold parse_host_port
    rw [if_pos hsep]
    simp only [he]
  · intro u hu
    constructor
    · intro hbad
      unfold parse_host_port
      rw [if_pos hsep]
      simp only [hu]
      rw [if_neg (by tauto)]
    · intro hgood
      constructor
      · intro p hp
        subst hp
        unfold parse_host_port
        rw [if_pos hsep]
        simp only [hu]
        rw [if_pos hgood]
        cases hh : u.hostname <;> simp [hh, Option.getD]
      · intro hpn
        subst hpn
        constructor
        · intro e he
          unfold parse_host_port
          rw [if_pos hsep]
          simp only [hu]
          rw [if_pos hgood]
          simp only [he]
        · intro po hpo
          unfold parse_host_port
          rw [if_pos hsep]
          simp only [hu]
          rw [if_pos hgood]
          simp only [hpo]
          cases hh : u.hostname <;> cases po <;> simp [hh, Option.getD]

/-- Witness for C4 at concrete inputs: an embedded port is honoured
and an unsupported scheme is rejected with a message naming it. -/
theorem scheme_resolution_witness :
    parse_host_port "ssl://h:9000" none = Except.ok ("h", 9000, true)
    ∧ parse_host_port "ws://h" none
        = Except.error ("Unsupported scheme " ++ quoteMark ++ "ws" ++ quoteMark
            ++ ". Use ssl:// or tcp://") := by
  constructor
  · have h := ((((scheme_resolution "ssl://h:9000" none rfl).2
      { scheme := "ssl", hostname := some "h", portDigits := some "9000" }
      rfl).2 (Or.inl rfl)).2 rfl).2 (some 9000) rfl
    exact h.trans rfl
  · have h := ((scheme_resolution "ws://h" none rfl).2
      { scheme := "ws", hostname := some "h", portDigits := none }
      rfl).1 (by constructor <;> decide)
    exact h

/-- C9 amended: every input the resolver accepts without an explicit
port argument yields a port in [1, 65535]; an explicit port argument
is returned unchecked, whatever its value. -/
theorem port_range (host_arg : String) :
    (∀ hh p t, parse_host_port host_arg none = Except.ok (hh, p, t)
        → 1 ≤ p ∧ p ≤ 65535)
    ∧ ∀ pe hh p t, parse_host_port host_arg (some pe) = Except.ok (hh, p, t)
        → p = pe := by
  constructor
  · intro hh p t hok
    unfold parse_host_port at hok
    by_cases hsep : pyContainsSep host_arg = true
    · rw [if_pos hsep] at hok
      cases hu : pyUrlparse host_arg with
      | error e => simp [hu] at hok
      | ok u =>
        simp only [hu] at hok
        by_cases hs : u.scheme = "ssl" ∨ u.scheme = "tcp"
        · rw [if_pos hs] at hok
          cases hpo : urlPort u with
          | error e => simp [hpo] at hok
          | ok po =>
            simp only [hpo] at hok
            cases po with
            | none =>
              simp only [Except.ok.injEq, Prod.mk.injEq] at hok
              obtain ⟨-, hp, -⟩ := hok
              by_cases htls : (u.scheme == "ssl") = true <;> simp [htls] at hp <;> omega
            | some pv =>
              have hle : pv ≤ 65535 := urlPort_ok_le u pv hpo
              simp only [Except.ok.injEq, Prod.mk.injEq] at hok
              obtain ⟨-, hp, -⟩ := hok
              by_cases hz : pv = 0
              · subst hz
                by_cases htls : (u.scheme == "ssl") = true <;> simp [htls] at hp <;> omega
              · rw [if_neg hz] at hp
                omega
        · rw [if_neg hs] at hok
          simp at hok
    · rw [if_neg hsep] at hok
      simp only [Except.ok.injEq, Prod.mk.injEq] at hok
      obtain ⟨-, hp, -⟩ := hok
      omega
  · intro pe hh p t hok
    unfold parse_host_port at hok
    by_cases hsep : pyContainsSep host_arg = true
    · rw [if_pos hsep] at hok
      cases hu : pyUrlparse host_arg with
      | error e => simp [hu] at hok
      | ok u =>
        simp only [hu] at hok
        by_cases hs : u.scheme = "ssl" ∨ u.scheme = "tcp"
        · rw [if_pos hs] at hok
          simp only [Except.ok.injEq, Prod.mk.injEq] at hok
          exact hok.2.1.symm
        · rw [if_neg hs] at hok
          simp at hok
    · rw [if_neg hsep] at hok
      simp only [Except.ok.injEq, Prod.mk.injEq] at hok
      exact hok.2.1.symm

/-- C9 counterexample: the resolver accepts a bare hostname with the
explicit port argument 0 and returns port 0, which is outside
[1, 65535]. -/
theorem port_range_cex :
    parse_host_port "h" (some 0) = Except.ok ("h", 0, false)
    ∧ ¬ ((1 : Int) ≤ 0 ∧ (0 : Int) ≤ 65535) := ⟨rfl, by decide⟩

/-- Witness for C9: with no explicit port, `ssl://h` resolves to port
8883, which the amended claim places in [1, 65535]. -/
theorem port_range_witness :
    parse_host_port "ssl://h" none = Except.ok ("h", 8883, true)
    ∧ (1 ≤ (8883 : Int) ∧ (8883 : Int) ≤ 65535) :=
  ⟨rfl, (port_range "ssl://h").1 "h" 8883 true rfl⟩

/-- Spec model (C2): one byte as exactly two lowercase hexadecimal
digits. -/
def specHexPair (b : Nat) : String :=
  String.mk [hexDigitChar (b / 16), hexDigitChar (b % 16)]

/-- Spec model (C2): the ASCII column shows the byte's character when
printable (32-126) and a dot otherwise. -/
def specAsciiChar (b : Nat) : Char :=
  if 32 ≤ b ∧ b ≤ 126 then Char.ofNat b else '.'

/-- Spec model (C2): one dump row — the zero-padded hexadecimal byte
offset (minimum width 4), the hex pairs separated by single spaces and
padded to the fixed column width 16*3 = 48, then the ASCII column. -/
def specRowFor (offset : Nat) (chunk : List Nat) : String :=
  pyHexPad 4 offset ++ "  "
    ++ pyLjust 48 (String.intercalate " " (chunk.map specHexPair))
    ++ "  " ++ String.mk (chunk.map specAsciiChar)

/-- Spec model (C2): group the payload bytes into rows of 16
(fuel-driven; fuel at least the length is always enough). -/
def specChunksGo : Nat → List Nat → List (List Nat)
  | 0, _ => []
  | _ + 1, [] => []
  | f + 1, x :: t => (x :: t).take 16 :: specChunksGo f ((x :: t).drop 16)

/-- Spec model (C2): the row chunks of a payload. -/
def specChunks (b : List Nat) : List (List Nat) := specChunksGo b.length b

/-- Spec model (C2): the dump rows, the j-th row starting at byte
offset j*16. -/
def specHexdumpLines (b : List Nat) : List String :=
  (specChunks b).mapIdx (fun j c => specRowFor (16 * j) c)

/-- Spec model (C2): the dump rows joined by newlines. -/
def specHexdump (b : List Nat) : String :=
  String.intercalate "\n" (specHexdumpLines b)

/-- Helper: the offset-driven loop of `hexdump` visits exactly the
16-byte chunks of the input, in order. -/
theorem range_map_chunks :
    ∀ (fuel : Nat) (b : List Nat), b.length ≤ fuel →
      ∀ (f : Nat → List Nat → String),
      (List.range ((b.length + 15) / 16)).map
          (fun r => f r ((b.drop (16 * r)).take 16))
        = (specChunksGo fuel b).mapIdx f := by
  intro fuel
  induction fuel with
  | zero =>
    intro b hb f
    have hnil : b = [] := List.length_eq_zero.mp (Nat.le_zero.mp hb)
    subst hnil
    rfl
  | succ fuel ih =>
    intro b hb f
    cases b with
    | nil => rfl
    | cons x t =>
      have hN : ((x :: t).length + 15) / 16
          = ((((x :: t).drop 16).length + 15) / 16) + 1 := by
        simp only [List.length_drop, List.length_cons]
        omega
      rw [hN, List.range_succ_eq_map, List.map_cons, List.map_map]
      rw [specChunksGo, List.mapIdx_cons]
      congr 1
      have hb2 : ((x :: t).drop 16).length ≤ fuel := by
        simp only [List.length_drop, List.length_cons]
        simp only [List.length_cons] at hb
        omega
      have hih := ih ((x :: t).drop 16) hb2 (fun i c => f (i + 1) c)
      rw [← hih]
      apply List.map_congr_left
      intro r _
      simp only [Function.comp_apply]
      have h2 : List.drop (16 * r) (List.drop 16 (x :: t))
          = List.drop (16 * (r + 1)) (x :: t) := by
        rw [List.drop_drop]
        congr 1
        ring
      rw [Nat.succ_eq_add_one, h2]

set_option maxRecDepth 8000 in
/-- Helper: for a byte value, Python `02x` formatting is exactly the
two-digit rendering. -/
theorem pyHexPad_two_eq : ∀ b < 256, pyHexPad 2 b = specHexPair b := by decide

/-- Helper: a code dump row equals the spec-model row when the chunk
holds byte values. -/
theorem hexLine_eq_specRow (off : Nat) (chunk : List Nat)
    (hb : ∀ x ∈ chunk, x < 256) : hexLine 16 off chunk = specRowFor off chunk := by
  unfold hexLine specRowFor
  have h1 : chunk.map (fun x => pyHexPad 2 x) = chunk.map specHexPair :=
    List.map_congr_left (fun x hx => pyHexPad_two_eq x (hb x hx))
  have h2 : chunk.map asciiDumpChar = chunk.map specAsciiChar :=
    List.map_congr_left (fun x _ => rfl)
  rw [h1, h2]

/-- Helper: a value below 16^k has at most k hexadecimal digits. -/
theorem hexRevGo_length_le : ∀ (f n k : Nat), n < 16 ^ k → (hexRevGo f n).length ≤ k := by
  intro f
  induction f with
  | zero =>
    intro n k _
    simp [hexRevGo]
  | succ f ih =>
    intro n k h
    rw [hexRevGo]
    by_cases hn : n = 0
    · simp [hn]
    · rw [if_neg hn]
      cases k with
      | zero =>
        simp only [pow_zero] at h
        omega
      | succ k =>
        simp only [List.length_cons]
        have hdiv : n / 16 < 16 ^ k := by
          rw [Nat.div_lt_iff_lt_mul (by norm_num)]
          calc n < 16 ^ (k + 1) := h
            _ = 16 ^ k * 16 := by ring
        exact Nat.succ_le_succ (ih (n / 16) k hdiv)

/-- Helper: `04x` formatting of a value below 0x10000 is exactly four
characters wide. -/
theorem pyHexPad_four_length (n : Nat) (h : n < 65536) : (pyHexPad 4 n).length = 4 := by
  have hlen : (pyHexChars n).length ≤ 4 := by
    unfold pyHexChars
    by_cases hn : n = 0
    · simp [hn]
    · rw [if_neg hn, List.length_reverse]
      exact hexRevGo_length_le n n 4 (by norm_num; omega)
  have hpos : 1 ≤ (pyHexChars n).length := by
    unfold pyHexChars
    by_cases hn : n = 0
    · simp [hn]
    · rw [if_neg hn, List.length_reverse]
      cases n with
      | zero => exact absurd rfl hn
      | succ m =>
        rw [hexRevGo]
        simp
  show (String.mk (List.replicate (4 - (pyHexChars n).length) '0' ++ pyHexChars n)).length = 4
  have : (String.mk (List.replicate (4 - (pyHexChars n).length) '0' ++ pyHexChars n)).length
      = (List.replicate (4 - (pyHexChars n).length) '0' ++ pyHexChars n).length := rfl
  rw [this, List.length_append, List.length_replicate]
  omega

/-- C2 amended: for every byte sequence the dump equals the spec-model
dump — rows of 16 via chunking, each row carrying the zero-padded hex
offset (minimum width 4, exactly 4 digits for offsets below 0x10000,
more digits above), the two-digit lowercase hex pairs separated by
single spaces padded to the fixed 48-character column, and the ASCII
column; the 17-byte sequence 0x00..0x10 yields exactly the two claimed
rows. -/
theorem hexdump_format (b : List Nat) (hb : ∀ x ∈ b, x < 256) :
    hexdumpLines b 16 = specHexdumpLines b
    ∧ hexdump b 16 = specHexdump b
    ∧ (∀ j, 16 * j < 65536 → (pyHexPad 4 (16 * j)).length = 4)
    ∧ hexdumpLines (List.range 17) 16
        = ["0000  00 01 02 03 04 05 06 07 08 09 0a 0b 0c 0d 0e 0f   ................",
           "0010  10                                                ."] := by
  have hlines : hexdumpLines b 16 = specHexdumpLines b := by
    unfold hexdumpLines specHexdumpLines specChunks
    have hch := range_map_chunks b.length b (le_refl _)
        (fun j c => specRowFor (16 * j) c)
    norm_num at hch ⊢
    rw [← hch]
    apply List.map_congr_left
    intro r _
    apply hexLine_eq_specRow
    intro x hx
    exact hb x (List.mem_of_mem_drop (List.mem_of_mem_take hx))
  refine ⟨hlines, ?_, fun j hj => pyHexPad_four_length _ hj, by decide⟩
  unfold hexdump specHexdump
  rw [hlines]

/-- Witness for C2 on the 17-byte sequence of the claim. -/
theorem hexdump_format_witness :
    (∀ x ∈ List.range 17, x < 256)
    ∧ hexdumpLines (List.range 17) 16 = specHexdumpLines (List.range 17) :=
  ⟨by decide, (hexdump_format (List.range 17) (by decide)).1⟩

/-- C2 counterexample: row 4096 of the dump of 65552 bytes starts at
byte offset 65536 = 0x10000, whose offset field `10000` is five
characters, not the claimed 4-hex-digit field (the row is 73 characters
instead of the 72 the claimed format implies). -/
theorem hexdump_offset_cex :
    (hexdumpLines (List.replicate 65552 0) 16)[4096]?
        = some ("10000  00 00 00 00 00 00 00 00 00 00 00 00 00 00 00 00   ................")
    ∧ ("10000" : String).length ≠ 4 := by
  refine ⟨?_, by decide⟩
  have hF : hexdumpLines (List.replicate 65552 0) 16
      = (List.range 4097).map
          (fun r => hexLine 16 (16 * r)
            (((List.replicate 65552 (0 : Nat)).drop (16 * r)).take 16)) := by
    unfold hexdumpLines
    norm_num
  rw [hF, List.getElem?_map, List.getElem?_range (by norm_num : (4096 : Nat) < 4097)]
  have hchunk : ((List.replicate 65552 (0 : Nat)).drop (16 * 4096)).take 16
      = List.replicate 16 0 := by
    rw [List.drop_replicate, List.take_replicate]
    norm_num
  simp only [Option.map_some', hchunk]
  decide
